import Mathlib

/-!
Verification development for the CPU probe module (`src/cpu.rs` of the
`probes` crate).

The module is embedded shallowly:

* Rust `u64` values become `Nat`; the `u64` range bound `2 ^ 64` is enforced
  where the source enforces it (parsing) and arithmetic overflow of `u64`
  (a program error in Rust: it aborts in debug builds) is made explicit
  through a dedicated `panics` outcome.
* Fallible Rust functions returning `Result<T, ProbeError>` become functions
  into `Except ProbeError T`; `try!` chains become explicit binds.
* The `f32`/`f64` percentage arithmetic is modelled over `ℚ` extended with
  the IEEE-754 non-finite values: division by a zero total follows IEEE-754
  exactly (`0/0` is NaN, `x/0` with `x > 0` is `+∞`), while finite quotients
  are kept exact (IEEE rounding is not modelled).
* File input is out of scope (spec §1): the parsers take the already-read
  line(s) as arguments, and timestamps are taken from the measurement
  records rather than from a clock.

Helpers living in the crate root (`lib.rs`), which is not part of the
sources under review, are modelled from the specification; each such
definition carries a doc comment starting with `Modelled from the spec:`.
-/

/-- The crate's error taxonomy (spec §7): `IOFailure` for failed reads,
`ParseFailure` for tokens that are not unsigned 64-bit integers,
`UnexpectedContent` for structurally valid but semantically incomplete
input (also used for counter decreases), `InvalidInput` for a snapshot
pair violating the ordering precondition. Each carries its message. -/
inductive ProbeError where
  | IOFailure : String → ProbeError
  | ParseFailure : String → ProbeError
  | UnexpectedContent : String → ProbeError
  | InvalidInput : String → ProbeError
deriving DecidableEq

/-- `CpuStat` (src/cpu.rs lines 38-50): eleven unsigned 64-bit counters,
including the stored `total` field. -/
structure CpuStat where
  total : Nat
  user : Nat
  nice : Nat
  system : Nat
  idle : Nat
  iowait : Nat
  irq : Nat
  softirq : Nat
  steal : Nat
  guest : Nat
  guestnice : Nat
deriving DecidableEq

/-- `CpuMeasurement` (src/cpu.rs lines 8-11): a `CpuStat` with the
monotonic-clock nanosecond timestamp at which it was taken. -/
structure CpuMeasurement where
  precise_time_ns : Nat
  stat : CpuStat
deriving DecidableEq

/-- Model of an IEEE-754 floating-point value as produced by the percentage
engine: NaN, positive infinity, or an exact rational. Finite arithmetic is
exact (rounding of `f64`/`f32` is not modelled); the non-finite cases follow
IEEE-754 division and addition exactly. -/
inductive FVal where
  | nan : FVal
  | inf : FVal
  | val : ℚ → FVal
deriving DecidableEq

/-- IEEE-754 addition on the model: NaN propagates, `+∞` absorbs finite
values, finite sums are exact. -/
def FVal.add : FVal → FVal → FVal
  | .nan, _ => .nan
  | _, .nan => .nan
  | .inf, _ => .inf
  | .val _, .inf => .inf
  | .val a, .val b => .val (a + b)

/-- `CpuStat::percentage_of_total` (src/cpu.rs lines 69-71):
`(value as f64 / self.total as f64 * 100.0) as f32`. There is no
division-by-zero guard in the source; when the stored `total` is zero the
IEEE-754 result is NaN for a zero numerator and `+∞` for a positive one.
For a nonzero total the quotient is modelled exactly over `ℚ`. -/
def CpuStat.percentage_of_total (s : CpuStat) (value : Nat) : FVal :=
  if s.total = 0 then
    if value = 0 then .nan else .inf
  else
    .val ((value : ℚ) / (s.total : ℚ) * 100)

/-- `CpuStatPercentages` (src/cpu.rs lines 76-87): ten floating-point
fields, here carried by the `FVal` model. -/
structure CpuStatPercentages where
  user : FVal
  nice : FVal
  system : FVal
  idle : FVal
  iowait : FVal
  irq : FVal
  softirq : FVal
  steal : FVal
  guest : FVal
  guestnice : FVal
deriving DecidableEq

/-- `CpuStat::in_percentages` (src/cpu.rs lines 54-67): each of the ten
component fields divided by the stored `total` field. -/
def CpuStat.in_percentages (s : CpuStat) : CpuStatPercentages :=
  { user := s.percentage_of_total s.user
    nice := s.percentage_of_total s.nice
    system := s.percentage_of_total s.system
    idle := s.percentage_of_total s.idle
    iowait := s.percentage_of_total s.iowait
    irq := s.percentage_of_total s.irq
    softirq := s.percentage_of_total s.softirq
    steal := s.percentage_of_total s.steal
    guest := s.percentage_of_total s.guest
    guestnice := s.percentage_of_total s.guestnice }

/-- The grand total derived from the ten components, exactly as computed in
`read_and_parse_proc_stat` (src/cpu.rs lines 141-144):
`idlealltime = idle + iowait`, `systemalltime = system + irq + softirq`,
`virtualtime = guest + guestnice`,
`total = user + nice + systemalltime + idlealltime + steal + virtualtime`. -/
def CpuStat.grandTotal (s : CpuStat) : Nat :=
  s.user + s.nice + (s.system + s.irq + s.softirq) + (s.idle + s.iowait) +
    s.steal + (s.guest + s.guestnice)

/-- Sum of the ten percentage fields, in source order, under the IEEE
addition model. -/
def CpuStatPercentages.sumAll (p : CpuStatPercentages) : FVal :=
  ((((((((p.user.add p.nice).add p.system).add p.idle).add p.iowait).add
      p.irq).add p.softirq).add p.steal).add p.guest).add p.guestnice

/-- The spec's ±0.1 tolerance around 100: holds only of a finite value
within one tenth of 100. -/
def FVal.withinTenthOf100 : FVal → Prop
  | .val q => |q - 100| ≤ 1 / 10
  | _ => False

/-- Explicit bind for `try!` chains over `Except ProbeError`. -/
def ebind : Except ProbeError α → (α → Except ProbeError β) → Except ProbeError β
  | .error e, _ => .error e
  | .ok a, f => f a

/-- Modelled from the spec: `calculate_time_difference` lives in the crate
root (`lib.rs`), which is not among the sources under review. Spec §4.1:
"Elapsed time: `later.timestamp > earlier.timestamp`, strictly. If not,
fail with `InvalidInput`"; the elapsed time is the difference. -/
def calculate_time_difference (first_time second_time : Nat) : Except ProbeError Nat :=
  if first_time < second_time then
    .ok (second_time - first_time)
  else
    .error (.InvalidInput "first_time is not earlier than second_time")

/-- The reference interval of one minute in nanoseconds (spec §4.1). -/
def MINUTE_NS : Nat := 60000000000

/-- Modelled from the spec: `time_adjusted` lives in the crate root
(`lib.rs`), which is not among the sources under review. Spec §4.1: the
later value must be ≥ the earlier value, otherwise fail with
`UnexpectedContent` naming the offending field; otherwise
`scaled = raw_delta * referenceIntervalNs / elapsed_ns`, multiplying first
and then truncating the division, with a 60-second reference interval. -/
def time_adjusted (name : String) (later earlier time_diff : Nat) :
    Except ProbeError Nat :=
  if later < earlier then
    .error (.UnexpectedContent name)
  else
    .ok ((later - earlier) * MINUTE_NS / time_diff)

/-- `CpuMeasurement::calculate_per_minute` (src/cpu.rs lines 17-33): the
elapsed time is validated first, then each of the eleven fields (the stored
`total` included) is delta-ed and time-adjusted in source order. -/
def CpuMeasurement.calculate_per_minute (m next_measurement : CpuMeasurement) :
    Except ProbeError CpuStat :=
  ebind (calculate_time_difference m.precise_time_ns next_measurement.precise_time_ns)
    fun time_difference =>
  ebind (time_adjusted "total" next_measurement.stat.total m.stat.total time_difference)
    fun total =>
  ebind (time_adjusted "user" next_measurement.stat.user m.stat.user time_difference)
    fun user =>
  ebind (time_adjusted "nice" next_measurement.stat.nice m.stat.nice time_difference)
    fun nice =>
  ebind (time_adjusted "system" next_measurement.stat.system m.stat.system time_difference)
    fun system =>
  ebind (time_adjusted "idle" next_measurement.stat.idle m.stat.idle time_difference)
    fun idle =>
  ebind (time_adjusted "iowait" next_measurement.stat.iowait m.stat.iowait time_difference)
    fun iowait =>
  ebind (time_adjusted "irq" next_measurement.stat.irq m.stat.irq time_difference)
    fun irq =>
  ebind (time_adjusted "softirq" next_measurement.stat.softirq m.stat.softirq time_difference)
    fun softirq =>
  ebind (time_adjusted "steal" next_measurement.stat.steal m.stat.steal time_difference)
    fun steal =>
  ebind (time_adjusted "guest" next_measurement.stat.guest m.stat.guest time_difference)
    fun guest =>
  ebind (time_adjusted "guestnice" next_measurement.stat.guestnice m.stat.guestnice time_difference)
    fun guestnice =>
  .ok { total := total, user := user, nice := nice, system := system,
        idle := idle, iowait := iowait, irq := irq, softirq := softirq,
        steal := steal, guest := guest, guestnice := guestnice }

/-- One more than the largest `u64` value. -/
def U64_MOD : Nat := 18446744073709551616

/-- Accumulator-style splitter over the character list: `acc` holds the
characters of the token being built, in reverse. -/
def splitWhitespaceAux : List Char → List Char → List String
  | [], acc => if acc.isEmpty then [] else [String.mk acc.reverse]
  | c :: cs, acc =>
      if c.isWhitespace then
        if acc.isEmpty then splitWhitespaceAux cs []
        else String.mk acc.reverse :: splitWhitespaceAux cs []
      else
        splitWhitespaceAux cs (c :: acc)

/-- Model of Rust's `str::split_whitespace`: the maximal non-empty runs of
non-whitespace characters. -/
def splitWhitespaceTokens (s : String) : List String :=
  splitWhitespaceAux s.data []

/-- Value of a string of decimal digits. -/
def digitsToNat (cs : List Char) : Nat :=
  cs.foldl (fun acc c => acc * 10 + (c.toNat - 48)) 0

/-- Modelled from the spec: `parse_u64` (the Field Parser) lives in the
crate root (`lib.rs`), which is not among the sources under review. Spec
§2: it "converts raw text tokens to unsigned 64-bit integers; reports a
parse failure as a distinct error kind", carrying the offending token
(spec §7, `ParseFailure`). A token parses when it is a non-empty string of
decimal digits whose value fits in 64 bits. -/
def parse_u64 (s : String) : Except ProbeError Nat :=
  if s.data ≠ [] ∧ s.data.all Char.isDigit ∧ digitsToNat s.data < U64_MOD then
    .ok (digitsToNat s.data)
  else
    .error (.ParseFailure s)

/-- `true` exactly when the token parses as an unsigned 64-bit integer. -/
def numericToken (s : String) : Bool :=
  match parse_u64 s with
  | .ok _ => true
  | .error _ => false

/-- Outcome of running a parser: a value, a `ProbeError`, or an aborted
program. `panics` marks the `u64` arithmetic overflow cases the source
leaves unguarded (subtraction below zero, addition beyond `u64::MAX`,
indexing past the end of a slice) — a program error in Rust, which aborts
debug builds. -/
inductive POutcome (α : Type) where
  | ok : α → POutcome α
  | err : ProbeError → POutcome α
  | panics : POutcome α
deriving DecidableEq

/-- Bind a fallible (`try!`) step into an outcome computation. -/
def pbind : Except ProbeError α → (α → POutcome β) → POutcome β
  | .error e, _ => .err e
  | .ok a, f => f a

/-- Bind a partial (`panics`-on-`none`) step into an outcome computation. -/
def obind : Option α → (α → POutcome β) → POutcome β
  | none, _ => .panics
  | some a, f => f a

/-- Rust `u64` subtraction: defined only when it does not underflow. -/
def subU64 (a b : Nat) : Option Nat :=
  if b ≤ a then some (a - b) else none

/-- Rust `u64` addition: defined only when it does not overflow. -/
def addU64 (a b : Nat) : Option Nat :=
  if a + b < U64_MOD then some (a + b) else none

/-- The `stats` vector of `os::read_and_parse_proc_stat` (src/cpu.rs lines
114-117): the whitespace-separated tokens of the line with the leading
label skipped. -/
def procStatTokens (line : String) : List String :=
  (splitWhitespaceTokens line).drop 1

/-- `os::read_and_parse_proc_stat` (src/cpu.rs lines 107-150), applied to
the already-read stat line (the file read and the clock are out of scope).
The tokens after the discarded label are counted; fewer than 5 is
`UnexpectedContent`. Then `usertime`, `nicetime`, `guest` and `guestnice`
are parsed (the last two defaulting to `"0"` past the end of the token
list), the guest-subtraction invariant is applied with unguarded `u64`
subtraction, the remaining fields are parsed with `"0"` defaults for
positions 5-7, and the stored total is recomputed from the components with
unguarded `u64` additions, in the source's evaluation order. -/
def read_and_parse_proc_stat (line : String) : POutcome CpuStat :=
  if (procStatTokens line).length < 5 then
    .err (.UnexpectedContent "Incorrect number of stats")
  else
    pbind (parse_u64 ((procStatTokens line).getD 0 "")) fun usertime =>
    pbind (parse_u64 ((procStatTokens line).getD 1 "")) fun nicetime =>
    pbind (parse_u64 ((procStatTokens line).getD 8 "0")) fun guest =>
    pbind (parse_u64 ((procStatTokens line).getD 9 "0")) fun guestnice =>
    obind (subU64 usertime guest) fun user =>
    obind (subU64 nicetime guestnice) fun nice =>
    pbind (parse_u64 ((procStatTokens line).getD 2 "")) fun system =>
    pbind (parse_u64 ((procStatTokens line).getD 3 "")) fun idle =>
    pbind (parse_u64 ((procStatTokens line).getD 4 "")) fun iowait =>
    pbind (parse_u64 ((procStatTokens line).getD 5 "0")) fun irq =>
    pbind (parse_u64 ((procStatTokens line).getD 6 "0")) fun softirq =>
    pbind (parse_u64 ((procStatTokens line).getD 7 "0")) fun steal =>
    obind (addU64 idle iowait) fun idlealltime =>
    obind (addU64 system irq) fun system_irq =>
    obind (addU64 system_irq softirq) fun systemalltime =>
    obind (addU64 guest guestnice) fun virtualtime =>
    obind (addU64 user nice) fun acc1 =>
    obind (addU64 acc1 systemalltime) fun acc2 =>
    obind (addU64 acc2 idlealltime) fun acc3 =>
    obind (addU64 acc3 steal) fun acc4 =>
    obind (addU64 acc4 virtualtime) fun total =>
    .ok { total := total, user := user, nice := nice, system := system,
          idle := idle, iowait := iowait, irq := irq, softirq := softirq,
          steal := steal, guest := guest, guestnice := guestnice }

/-- `CPU_SYS_NUMBER_OF_FIELDS` (src/cpu.rs line 4). -/
def CPU_SYS_NUMBER_OF_FIELDS : Nat := 2

/-- `os::nano_to_user` (src/cpu.rs lines 206-208):
`value.checked_div(10_000_000).unwrap_or(0)` — the divisor is the nonzero
constant 10,000,000, so `checked_div` always succeeds and the function is
plain truncating division. -/
def nano_to_user (value : Nat) : Nat :=
  value / 10000000

/-- The `for line in reader.lines()` loop of `os::read_and_parse_sys_stat`
(src/cpu.rs lines 171-195) together with the post-loop check: each line is
split on whitespace, `segments[1]` is parsed (indexing past a short line is
a panic), `segments[0]` equal to `"user"` or `"system"` stores the value
and counts the field, and the loop breaks as soon as
`CPU_SYS_NUMBER_OF_FIELDS` fields were counted; exhausting the lines with
fewer counted fields is `UnexpectedContent`. -/
def sys_stat_scan (cpu : CpuStat) (fields_encountered : Nat) :
    List String → POutcome CpuStat
  | [] =>
      if fields_encountered ≠ CPU_SYS_NUMBER_OF_FIELDS then
        .err (.UnexpectedContent "Did not encounter all expected fields")
      else
        .ok cpu
  | line :: rest =>
      match splitWhitespaceTokens line with
      | key :: rawValue :: _ =>
          pbind (parse_u64 rawValue) fun value =>
          if key = "user" then
            if fields_encountered + 1 = CPU_SYS_NUMBER_OF_FIELDS then
              .ok { cpu with user := value }
            else
              sys_stat_scan { cpu with user := value } (fields_encountered + 1) rest
          else if key = "system" then
            if fields_encountered + 1 = CPU_SYS_NUMBER_OF_FIELDS then
              .ok { cpu with system := value }
            else
              sys_stat_scan { cpu with system := value } (fields_encountered + 1) rest
          else
            if fields_encountered = CPU_SYS_NUMBER_OF_FIELDS then
              .ok cpu
            else
              sys_stat_scan cpu fields_encountered rest
      | _ => .panics

/-- `os::read_and_parse_sys_stat` (src/cpu.rs lines 152-201), applied to
the already-read `cpuacct.usage` value and the already-read lines of
`cpuacct.stat` (the file reads and the clock are out of scope). The stored
total is the usage converted by `nano_to_user`; every other field starts at
0 and only `user` and `system` are ever written by the scan. -/
def read_and_parse_sys_stat (usage : Nat) (lines : List String) : POutcome CpuStat :=
  sys_stat_scan
    { total := nano_to_user usage, user := 0, system := 0, nice := 0,
      idle := 0, iowait := 0, irq := 0, softirq := 0, steal := 0,
      guest := 0, guestnice := 0 }
    0 lines

instance : DecidablePred FVal.withinTenthOf100 := fun f =>
  match f with
  | .nan => isFalse (fun h => h)
  | .inf => isFalse (fun h => h)
  | .val q => inferInstanceAs (Decidable (|q - 100| ≤ 1 / 10))

/-- The all-zero `CpuStat`. -/
def zeroCpuStat : CpuStat :=
  { total := 0, user := 0, nice := 0, system := 0, idle := 0, iowait := 0,
    irq := 0, softirq := 0, steal := 0, guest := 0, guestnice := 0 }

/-- A `CpuStat` whose stored `total` (1000) has drifted away from the grand
total of its ten components (500). -/
def driftedCpuStat : CpuStat :=
  { total := 1000, user := 500, nice := 0, system := 0, idle := 0,
    iowait := 0, irq := 0, softirq := 0, steal := 0, guest := 0,
    guestnice := 0 }

/-- The `CpuStat` of the `test_in_percentages` fixture
(src/cpu.rs lines 515-527); its stored `total` equals its grand total. -/
def percentagesFixture : CpuStat :=
  { total := 1000, user := 450, nice := 70, system := 100, idle := 100,
    iowait := 120, irq := 10, softirq := 20, steal := 50, guest := 50,
    guestnice := 30 }

/-- C1 counterexample: on the all-zero `CpuStat` (grand total zero, stored
total zero) every percentage field is NaN — the IEEE-754 result of `0/0` —
and NaN is not the value `0.0`; the claimed explicit division-by-zero guard
does not exist in `percentage_of_total`. -/
theorem c1_zero_total_yields_nan_not_zero :
    zeroCpuStat.in_percentages =
      { user := FVal.nan, nice := FVal.nan, system := FVal.nan,
        idle := FVal.nan, iowait := FVal.nan, irq := FVal.nan,
        softirq := FVal.nan, steal := FVal.nan, guest := FVal.nan,
        guestnice := FVal.nan } ∧
    FVal.nan ≠ FVal.val 0 := by
  exact ⟨rfl, by decide⟩

/-- C1 amended: `in_percentages` is a total function (it never fails), but
for a `CpuStat` whose stored `total` is zero there is no division-by-zero
guard: each field is the IEEE-754 quotient by zero — NaN where the
component is zero and `+∞` where it is positive — never `0.0`. -/
theorem c1_amended_zero_total_unguarded (s : CpuStat) (h : s.total = 0) :
    s.in_percentages =
      { user := if s.user = 0 then FVal.nan else FVal.inf,
        nice := if s.nice = 0 then FVal.nan else FVal.inf,
        system := if s.system = 0 then FVal.nan else FVal.inf,
        idle := if s.idle = 0 then FVal.nan else FVal.inf,
        iowait := if s.iowait = 0 then FVal.nan else FVal.inf,
        irq := if s.irq = 0 then FVal.nan else FVal.inf,
        softirq := if s.softirq = 0 then FVal.nan else FVal.inf,
        steal := if s.steal = 0 then FVal.nan else FVal.inf,
        guest := if s.guest = 0 then FVal.nan else FVal.inf,
        guestnice := if s.guestnice = 0 then FVal.nan else FVal.inf } := by
  simp [CpuStat.in_percentages, CpuStat.percentage_of_total, h]

/-- C1 amended witness: the all-zero `CpuStat` instantiates the amended
statement. -/
theorem c1_amended_zero_total_unguarded_witness :
    zeroCpuStat.in_percentages =
      { user := if zeroCpuStat.user = 0 then FVal.nan else FVal.inf,
        nice := if zeroCpuStat.nice = 0 then FVal.nan else FVal.inf,
        system := if zeroCpuStat.system = 0 then FVal.nan else FVal.inf,
        idle := if zeroCpuStat.idle = 0 then FVal.nan else FVal.inf,
        iowait := if zeroCpuStat.iowait = 0 then FVal.nan else FVal.inf,
        irq := if zeroCpuStat.irq = 0 then FVal.nan else FVal.inf,
        softirq := if zeroCpuStat.softirq = 0 then FVal.nan else FVal.inf,
        steal := if zeroCpuStat.steal = 0 then FVal.nan else FVal.inf,
        guest := if zeroCpuStat.guest = 0 then FVal.nan else FVal.inf,
        guestnice := if zeroCpuStat.guestnice = 0 then FVal.nan else FVal.inf } :=
  c1_amended_zero_total_unguarded zeroCpuStat rfl

/-- C3 counterexample: `percentage_of_total` divides by the independently
stored `total` field, so a `CpuStat` with positive grand total (500) but a
drifted stored total (1000) sums its percentages to 50, far outside ±0.1 of
100. -/
theorem c3_drifted_total_breaks_percentage_sum :
    0 < driftedCpuStat.grandTotal ∧
    ¬ driftedCpuStat.in_percentages.sumAll.withinTenthOf100 := by
  constructor
  · decide
  · simp only [driftedCpuStat, CpuStat.in_percentages,
      CpuStat.percentage_of_total, CpuStatPercentages.sumAll, FVal.add,
      FVal.withinTenthOf100]
    norm_num

/-- C3 amended: for a `CpuStat` whose stored `total` equals the grand total
derived from its ten components and is positive, the percentages sum to
exactly 100 in the exact-arithmetic model, hence within ±0.1 of 100.0. -/
theorem c3_amended_percentage_sum (s : CpuStat)
    (htot : s.total = s.grandTotal) (hpos : 0 < s.total) :
    s.in_percentages.sumAll.withinTenthOf100 := by
  have h0 : s.total ≠ 0 := Nat.pos_iff_ne_zero.mp hpos
  have ht : (s.total : ℚ) ≠ 0 := Nat.cast_ne_zero.mpr h0
  have hc : (s.total : ℚ) =
      (s.user : ℚ) + s.nice + (s.system + s.irq + s.softirq) +
        (s.idle + s.iowait) + s.steal + (s.guest + s.guestnice) := by
    rw [htot]
    unfold CpuStat.grandTotal
    push_cast
    ring
  simp only [CpuStat.in_percentages, CpuStat.percentage_of_total,
    CpuStatPercentages.sumAll, FVal.add, if_neg h0, FVal.withinTenthOf100]
  have hsum : (s.user : ℚ) / s.total * 100 + s.nice / s.total * 100 +
      s.system / s.total * 100 + s.idle / s.total * 100 +
      s.iowait / s.total * 100 + s.irq / s.total * 100 +
      s.softirq / s.total * 100 + s.steal / s.total * 100 +
      s.guest / s.total * 100 + s.guestnice / s.total * 100 = 100 := by
    field_simp
    linarith [hc]
  rw [hsum]
  norm_num

/-- C3 amended witness: the `test_in_percentages` fixture, whose stored
total 1000 equals its grand total. -/
theorem c3_amended_percentage_sum_witness :
    percentagesFixture.in_percentages.sumAll.withinTenthOf100 :=
  c3_amended_percentage_sum percentagesFixture (by decide) (by decide)

/-- C6: parsing the host-stat line `"cpu 8 2 7 6 5 4 3 1 2 1"` applies the
guest-subtraction invariant: `user = 8 - 2 = 6`, `nice = 2 - 1 = 1`, and
the remaining fields are taken in order. -/
theorem c6_host_stat_parse_guest_subtraction :
    read_and_parse_proc_stat "cpu 8 2 7 6 5 4 3 1 2 1" =
      .ok { total := 36, user := 6, nice := 1, system := 7, idle := 6,
            iowait := 5, irq := 4, softirq := 3, steal := 1, guest := 2,
            guestnice := 1 } := by
  decide

/-- C10: host-stat lines whose `guest` field exceeds the raw `user` field
(or whose `guestnice` exceeds the raw `nice`) drive the unguarded `u64`
guest subtraction below zero: the parse is neither a snapshot nor a
taxonomy error but the aborted-program outcome. -/
theorem c10_guest_subtraction_underflow :
    read_and_parse_proc_stat "cpu 1 0 0 0 0 0 0 0 5 0" = POutcome.panics ∧
    read_and_parse_proc_stat "cpu 0 1 0 0 0 0 0 0 0 5" = POutcome.panics := by
  decide

/-- C7 counterexample: the minimum-field check counts all
whitespace-separated tokens after the label, not only the numeric ones:
`"cpu 1 2 3 4 x"` carries only 4 numeric fields, yet it passes the length
check and fails with `ParseFailure` on `"x"`, not with
`UnexpectedContent`. -/
theorem c7_nonnumeric_field_counted :
    read_and_parse_proc_stat "cpu 1 2 3 4 x" =
      .err (.ParseFailure "x") ∧
    ((procStatTokens "cpu 1 2 3 4 x").filter numericToken).length = 4 := by
  decide

/-- C7 amended: a host-stat line with fewer than 5 whitespace-separated
fields after the discarded label (numeric or not) fails with
`UnexpectedContent` rather than defaulting the missing required fields. -/
theorem c7_amended_too_few_fields (line : String)
    (h : (procStatTokens line).length < 5) :
    read_and_parse_proc_stat line =
      .err (.UnexpectedContent "Incorrect number of stats") := by
  unfold read_and_parse_proc_stat
  split
  · rfl
  · next hcond => exact absurd h hcond

/-- C7 amended witness: a line with only 3 fields after the label. -/
theorem c7_amended_too_few_fields_witness :
    read_and_parse_proc_stat "cpu 1 2 3" =
      .err (.UnexpectedContent "Incorrect number of stats") :=
  c7_amended_too_few_fields "cpu 1 2 3" (by decide)

/-- `parse_u64` accepts the default token `"0"`. -/
theorem parse_u64_zero : parse_u64 "0" = .ok 0 := rfl

/-- C8 amended: a host-stat line with exactly 5 valid numeric fields after
the label parses successfully with `irq = softirq = steal = guest =
guestnice = 0`, provided the five values sum below `2 ^ 64`; without that
bound the recomputation of the stored total overflows `u64` (a program
error that aborts debug builds), so success is not universal. -/
theorem c8_amended_five_fields (line : String) (t0 t1 t2 t3 t4 : String)
    (v0 v1 v2 v3 v4 : Nat)
    (hts : procStatTokens line = [t0, t1, t2, t3, t4])
    (h0 : parse_u64 t0 = .ok v0) (h1 : parse_u64 t1 = .ok v1)
    (h2 : parse_u64 t2 = .ok v2) (h3 : parse_u64 t3 = .ok v3)
    (h4 : parse_u64 t4 = .ok v4)
    (hsum : v0 + v1 + v2 + v3 + v4 < U64_MOD) :
    read_and_parse_proc_stat line =
      .ok { total := v0 + v1 + v2 + v3 + v4, user := v0, nice := v1,
            system := v2, idle := v3, iowait := v4, irq := 0, softirq := 0,
            steal := 0, guest := 0, guestnice := 0 } := by
  have hlen : ¬ (procStatTokens line).length < 5 := by
    rw [hts]; norm_num
  unfold read_and_parse_proc_stat
  rw [if_neg hlen, hts]
  unfold U64_MOD at hsum
  simp only [List.getD, List.get?, Option.getD, h0, h1, h2, h3, h4,
    parse_u64_zero, pbind, obind, subU64, addU64, U64_MOD]
  norm_num
  have c1 : v3 + v4 < 18446744073709551616 := by omega
  have c2 : v2 < 18446744073709551616 := by omega
  have c3 : v0 + v1 < 18446744073709551616 := by omega
  have c4 : v0 + v1 + v2 < 18446744073709551616 := by omega
  have c5 : v0 + v1 + v2 + (v3 + v4) < 18446744073709551616 := by omega
  have hre : v0 + v1 + v2 + (v3 + v4) = v0 + v1 + v2 + v3 + v4 := by omega
  simp [c1, c2, c3, c4, c5, hsum, hre]

/-- The host-stat line whose five valid numeric fields sum past `u64`
range. -/
def hugeProcStatLine : String :=
  "cpu 18446744073709551615 0 0 18446744073709551615 0"

/-- C8 counterexample: a line with exactly 5 valid numeric fields
(`u64::MAX`, 0, 0, `u64::MAX`, 0) on which the unguarded recomputation of
the stored total overflows `u64`, so parsing does not succeed. -/
theorem c8_overflowing_five_field_line :
    read_and_parse_proc_stat hugeProcStatLine = POutcome.panics ∧
    (procStatTokens hugeProcStatLine).length = 5 ∧
    (procStatTokens hugeProcStatLine).all numericToken = true := by
  decide

/-- C8 amended witness: the five-field line of the
`test_read_proc_measurement_from_partial` fixture (src/cpu.rs lines
236-250). -/
theorem c8_amended_five_fields_witness :
    read_and_parse_proc_stat "cpu 10 3 7 6 5" =
      .ok { total := 31, user := 10, nice := 3, system := 7, idle := 6,
            iowait := 5, irq := 0, softirq := 0, steal := 0, guest := 0,
            guestnice := 0 } :=
  c8_amended_five_fields "cpu 10 3 7 6 5" "10" "3" "7" "6" "5" 10 3 7 6 5
    rfl rfl rfl rfl rfl rfl (by decide)

/-- The earlier measurement of the `test_calculate_per_minute_partial_minute`
fixture (src/cpu.rs lines 418-433), taken at t = 60 s. -/
def measurementAt60s : CpuMeasurement :=
  { precise_time_ns := 60000000000,
    stat := { total := 6380, user := 1000, nice := 1100, system := 1200,
              idle := 1300, iowait := 1400, irq := 50, softirq := 10,
              steal := 20, guest := 200, guestnice := 100 } }

/-- The later measurement of the same fixture (src/cpu.rs lines 435-450),
taken at t = 90 s with every field 6 higher (total 60 higher). -/
def measurementAt90s : CpuMeasurement :=
  { precise_time_ns := 90000000000,
    stat := { total := 6440, user := 1006, nice := 1106, system := 1206,
              idle := 1306, iowait := 1406, irq := 56, softirq := 16,
              steal := 26, guest := 206, guestnice := 106 } }

/-- What `test_calculate_per_minute_partial_minute` (src/cpu.rs lines
452-464) asserts the crate computes on that fixture: every delta scaled
*down* by elapsed/reference (6 over 30 s ↦ 3). -/
def perMinuteExpectedByTest : CpuStat :=
  { total := 30, user := 3, nice := 3, system := 3, idle := 3, iowait := 3,
    irq := 3, softirq := 3, steal := 3, guest := 3, guestnice := 3 }

/-- C2: on the partial-minute fixture the spec's delta engine
(`scaled = raw_delta * referenceIntervalNs / elapsed_ns`, reference 60 s)
turns each field delta of 6 over the 30-second interval into 12 (total
delta 60 into 120) — but the crate's own test on this exact fixture
asserts 3 per field (total 30), the reciprocal scaling
`raw_delta * elapsed_ns / referenceIntervalNs`. -/
theorem c2_partial_minute_scaling :
    measurementAt60s.calculate_per_minute measurementAt90s =
      .ok { total := 120, user := 12, nice := 12, system := 12, idle := 12,
            iowait := 12, irq := 12, softirq := 12, steal := 12,
            guest := 12, guestnice := 12 } ∧
    ({ total := 120, user := 12, nice := 12, system := 12, idle := 12,
       iowait := 12, irq := 12, softirq := 12, steal := 12, guest := 12,
       guestnice := 12 } : CpuStat) ≠ perMinuteExpectedByTest := by
  exact ⟨rfl, by decide⟩

/-- Holds exactly of a delta-engine result that is an `InvalidInput`
error. -/
def isInvalidInputError : Except ProbeError CpuStat → Prop
  | .error (.InvalidInput _) => True
  | _ => False

/-- Holds of a delta-engine result that is an `UnexpectedContent` error
whose message is the name of one of the eleven `CpuStat` fields whose value
decreased from `m` to `next`. -/
def failsNamingADecreasedField (m next : CpuMeasurement) : Prop :=
  ∃ name, m.calculate_per_minute next = .error (.UnexpectedContent name) ∧
    ((name = "total" ∧ next.stat.total < m.stat.total) ∨
     (name = "user" ∧ next.stat.user < m.stat.user) ∨
     (name = "nice" ∧ next.stat.nice < m.stat.nice) ∨
     (name = "system" ∧ next.stat.system < m.stat.system) ∨
     (name = "idle" ∧ next.stat.idle < m.stat.idle) ∨
     (name = "iowait" ∧ next.stat.iowait < m.stat.iowait) ∨
     (name = "irq" ∧ next.stat.irq < m.stat.irq) ∨
     (name = "softirq" ∧ next.stat.softirq < m.stat.softirq) ∨
     (name = "steal" ∧ next.stat.steal < m.stat.steal) ∨
     (name = "guest" ∧ next.stat.guest < m.stat.guest) ∨
     (name = "guestnice" ∧ next.stat.guestnice < m.stat.guestnice))

/-- C5: a snapshot pair whose later timestamp is not strictly greater than
the earlier one (equal timestamps included) fails with `InvalidInput`.
No hypothesis on the counter fields is needed: the time check is evaluated
before any per-field monotonicity check, so the error is `InvalidInput`
even when counters also decrease. -/
theorem c5_non_increasing_timestamps_invalid_input
    (m next : CpuMeasurement)
    (ht : next.precise_time_ns ≤ m.precise_time_ns) :
    isInvalidInputError (m.calculate_per_minute next) := by
  have hcd : calculate_time_difference m.precise_time_ns next.precise_time_ns =
      .error (.InvalidInput "first_time is not earlier than second_time") := by
    rw [calculate_time_difference, if_neg (Nat.not_lt.mpr ht)]
  unfold CpuMeasurement.calculate_per_minute
  rw [hcd]
  exact trivial

/-- C5 witness: the `test_calculate_per_minute_wrong_times` fixture
(src/cpu.rs lines 320-359): earlier timestamp 90 s, later timestamp 60 s,
all-zero stats. -/
theorem c5_non_increasing_timestamps_invalid_input_witness :
    isInvalidInputError
      (CpuMeasurement.calculate_per_minute
        { precise_time_ns := 90000000000, stat := zeroCpuStat }
        { precise_time_ns := 60000000000, stat := zeroCpuStat }) :=
  c5_non_increasing_timestamps_invalid_input
    { precise_time_ns := 90000000000, stat := zeroCpuStat }
    { precise_time_ns := 60000000000, stat := zeroCpuStat }
    (by decide)

/-- C4: with strictly increasing timestamps, if any of the ten counters
decreased, the delta engine fails with `UnexpectedContent` naming a field
that decreased (the first in source order, which may be the stored
`total`); in particular it never returns a wrapped or negative rate, since
it returns no `CpuStat` at all. -/
theorem c4_decreasing_counter_unexpected_content
    (m next : CpuMeasurement)
    (ht : m.precise_time_ns < next.precise_time_ns)
    (hdec : next.stat.user < m.stat.user ∨ next.stat.nice < m.stat.nice ∨
      next.stat.system < m.stat.system ∨ next.stat.idle < m.stat.idle ∨
      next.stat.iowait < m.stat.iowait ∨ next.stat.irq < m.stat.irq ∨
      next.stat.softirq < m.stat.softirq ∨ next.stat.steal < m.stat.steal ∨
      next.stat.guest < m.stat.guest ∨
      next.stat.guestnice < m.stat.guestnice) :
    failsNamingADecreasedField m next := by
  have hcd : calculate_time_difference m.precise_time_ns next.precise_time_ns =
      .ok (next.precise_time_ns - m.precise_time_ns) := by
    rw [calculate_time_difference, if_pos ht]
  unfold failsNamingADecreasedField CpuMeasurement.calculate_per_minute
  rw [hcd]
  simp only [ebind]
  by_cases hT : next.stat.total < m.stat.total
  · rw [time_adjusted, if_pos hT]
    exact ⟨"total", rfl, Or.inl ⟨rfl, hT⟩⟩
  rw [time_adjusted, if_neg hT]
  simp only [ebind]
  by_cases hU : next.stat.user < m.stat.user
  · rw [time_adjusted, if_pos hU]
    exact ⟨"user", rfl, Or.inr (Or.inl ⟨rfl, hU⟩)⟩
  rw [time_adjusted, if_neg hU]
  simp only [ebind]
  by_cases hN : next.stat.nice < m.stat.nice
  · rw [time_adjusted, if_pos hN]
    exact ⟨"nice", rfl, Or.inr (Or.inr (Or.inl ⟨rfl, hN⟩))⟩
  rw [time_adjusted, if_neg hN]
  simp only [ebind]
  by_cases hS : next.stat.system < m.stat.system
  · rw [time_adjusted, if_pos hS]
    exact ⟨"system", rfl, Or.inr (Or.inr (Or.inr (Or.inl ⟨rfl, hS⟩)))⟩
  rw [time_adjusted, if_neg hS]
  simp only [ebind]
  by_cases hI : next.stat.idle < m.stat.idle
  · rw [time_adjusted, if_pos hI]
    exact ⟨"idle", rfl, Or.inr (Or.inr (Or.inr (Or.inr (Or.inl ⟨rfl, hI⟩))))⟩
  rw [time_adjusted, if_neg hI]
  simp only [ebind]
  by_cases hW : next.stat.iowait < m.stat.iowait
  · rw [time_adjusted, if_pos hW]
    exact ⟨"iowait", rfl,
      Or.inr (Or.inr (Or.inr (Or.inr (Or.inr (Or.inl ⟨rfl, hW⟩)))))⟩
  rw [time_adjusted, if_neg hW]
  simp only [ebind]
  by_cases hQ : next.stat.irq < m.stat.irq
  · rw [time_adjusted, if_pos hQ]
    exact ⟨"irq", rfl,
      Or.inr (Or.inr (Or.inr (Or.inr (Or.inr (Or.inr (Or.inl ⟨rfl, hQ⟩))))))⟩
  rw [time_adjusted, if_neg hQ]
  simp only [ebind]
  by_cases hF : next.stat.softirq < m.stat.softirq
  · rw [time_adjusted, if_pos hF]
    exact ⟨"softirq", rfl,
      Or.inr (Or.inr (Or.inr (Or.inr (Or.inr (Or.inr (Or.inr
        (Or.inl ⟨rfl, hF⟩)))))))⟩
  rw [time_adjusted, if_neg hF]
  simp only [ebind]
  by_cases hL : next.stat.steal < m.stat.steal
  · rw [time_adjusted, if_pos hL]
    exact ⟨"steal", rfl,
      Or.inr (Or.inr (Or.inr (Or.inr (Or.inr (Or.inr (Or.inr (Or.inr
        (Or.inl ⟨rfl, hL⟩))))))))⟩
  rw [time_adjusted, if_neg hL]
  simp only [ebind]
  by_cases hG : next.stat.guest < m.stat.guest
  · rw [time_adjusted, if_pos hG]
    exact ⟨"guest", rfl,
      Or.inr (Or.inr (Or.inr (Or.inr (Or.inr (Or.inr (Or.inr (Or.inr
        (Or.inr (Or.inl ⟨rfl, hG⟩)))))))))⟩
  rw [time_adjusted, if_neg hG]
  simp only [ebind]
  by_cases hE : next.stat.guestnice < m.stat.guestnice
  · rw [time_adjusted, if_pos hE]
    exact ⟨"guestnice", rfl,
      Or.inr (Or.inr (Or.inr (Or.inr (Or.inr (Or.inr (Or.inr (Or.inr
        (Or.inr (Or.inr ⟨rfl, hE⟩)))))))))⟩
  exfalso
  rcases hdec with h | h | h | h | h | h | h | h | h | h <;> omega

/-- C4 witness: the `test_calculate_per_minute_values_lower` fixture
(src/cpu.rs lines 472-511): valid timestamps, `user` (and others) lower in
the later measurement. -/
theorem c4_decreasing_counter_unexpected_content_witness :
    failsNamingADecreasedField measurementAt60s
      { precise_time_ns := 90000000000,
        stat := { total := 1040, user := 106, nice := 116, system := 126,
                  idle := 136, iowait := 146, irq := 56, softirq := 16,
                  steal := 26, guest := 206, guestnice := 106 } } :=
  c4_decreasing_counter_unexpected_content measurementAt60s
    { precise_time_ns := 90000000000,
      stat := { total := 1040, user := 106, nice := 116, system := 126,
                idle := 136, iowait := 146, irq := 56, softirq := 16,
                steal := 26, guest := 206, guestnice := 106 } }
    (by decide) (Or.inl (by decide))

/-- A `cpuacct.stat` line is well formed when it has at least two
whitespace-separated tokens and the second parses as a `u64`; lines
violating this drive the scan into a slice-index panic or a
`ParseFailure`. -/
def wellFormedKVLine (l : String) : Bool :=
  match splitWhitespaceTokens l with
  | _ :: rawValue :: _ => numericToken rawValue
  | _ => false

/-- A line whose first token is the `user` or the `system` key — the lines
the scan counts (with multiplicity). -/
def isKeyLine (l : String) : Bool :=
  match splitWhitespaceTokens l with
  | key :: _ => key == "user" || key == "system"
  | _ => false

/-- Number of key lines, counted with multiplicity. -/
def countedKeyLines (lines : List String) : Nat :=
  (lines.filter isKeyLine).length

/-- Exhausting well-formed lines with fewer key-line occurrences than
`CPU_SYS_NUMBER_OF_FIELDS` (counting the `fields_encountered` already
accumulated) yields the `UnexpectedContent` error. -/
theorem sys_stat_scan_exhausted (lines : List String) :
    ∀ (cpu : CpuStat) (fe : Nat),
      (∀ l ∈ lines, wellFormedKVLine l = true) →
      fe + countedKeyLines lines < CPU_SYS_NUMBER_OF_FIELDS →
      sys_stat_scan cpu fe lines =
        .err (.UnexpectedContent "Did not encounter all expected fields") := by
  induction lines with
  | nil =>
      intro cpu fe _ hc
      have h0 : countedKeyLines ([] : List String) = 0 := rfl
      rw [h0] at hc
      unfold sys_stat_scan
      rw [if_pos]
      unfold CPU_SYS_NUMBER_OF_FIELDS at hc ⊢
      omega
  | cons l rest ih =>
      intro cpu fe hwf hc
      have hwl : wellFormedKVLine l = true := hwf l (by simp)
      have hwr : ∀ x ∈ rest, wellFormedKVLine x = true := by
        intro x hx
        exact hwf x (by simp [hx])
      unfold sys_stat_scan
      cases hsp : splitWhitespaceTokens l with
      | nil =>
          unfold wellFormedKVLine at hwl
          rw [hsp] at hwl
          simp at hwl
      | cons key tail =>
          cases tail with
          | nil =>
              unfold wellFormedKVLine at hwl
              rw [hsp] at hwl
              simp at hwl
          | cons rawValue rest2 =>
              unfold wellFormedKVLine at hwl
              rw [hsp] at hwl
              have hnum : numericToken rawValue = true := hwl
              obtain ⟨value, hp⟩ : ∃ v, parse_u64 rawValue = Except.ok v := by
                unfold numericToken at hnum
                cases hp2 : parse_u64 rawValue with
                | ok v => exact ⟨v, rfl⟩
                | error e =>
                    rw [hp2] at hnum
                    simp at hnum
              simp only [hsp, hp, pbind]
              by_cases hk : key = "user"
              · have hkey : isKeyLine l = true := by
                  unfold isKeyLine
                  rw [hsp]
                  simp [hk]
                have hcount : countedKeyLines (l :: rest) =
                    countedKeyLines rest + 1 := by
                  unfold countedKeyLines
                  simp [List.filter_cons, hkey]
                rw [hcount] at hc
                rw [if_pos hk, if_neg (by
                  unfold CPU_SYS_NUMBER_OF_FIELDS at hc ⊢
                  omega)]
                exact ih _ _ hwr (by omega)
              · by_cases hs : key = "system"
                · have hkey : isKeyLine l = true := by
                    unfold isKeyLine
                    rw [hsp]
                    simp [hs]
                  have hcount : countedKeyLines (l :: rest) =
                      countedKeyLines rest + 1 := by
                    unfold countedKeyLines
                    simp [List.filter_cons, hkey]
                  rw [hcount] at hc
                  rw [if_neg hk, if_pos hs, if_neg (by
                    unfold CPU_SYS_NUMBER_OF_FIELDS at hc ⊢
                    omega)]
                  exact ih _ _ hwr (by omega)
                · have hkey : isKeyLine l = false := by
                    unfold isKeyLine
                    rw [hsp]
                    simp [hk, hs]
                  have hcount : countedKeyLines (l :: rest) =
                      countedKeyLines rest := by
                    unfold countedKeyLines
                    simp [List.filter_cons, hkey]
                  rw [hcount] at hc
                  rw [if_neg hk, if_neg hs, if_neg (by
                    unfold CPU_SYS_NUMBER_OF_FIELDS at hc ⊢
                    omega)]
                  exact ih _ _ hwr (by omega)

/-- Whenever the scan returns a `CpuStat`, every field other than `user`
and `system` is exactly what it started as. -/
theorem sys_stat_scan_ok_fields (lines : List String) :
    ∀ (cpu : CpuStat) (fe : Nat) (stat : CpuStat),
      sys_stat_scan cpu fe lines = .ok stat →
      stat.total = cpu.total ∧ stat.nice = cpu.nice ∧
      stat.idle = cpu.idle ∧ stat.iowait = cpu.iowait ∧
      stat.irq = cpu.irq ∧ stat.softirq = cpu.softirq ∧
      stat.steal = cpu.steal ∧ stat.guest = cpu.guest ∧
      stat.guestnice = cpu.guestnice := by
  induction lines with
  | nil =>
      intro cpu fe stat h
      unfold sys_stat_scan at h
      by_cases hfe : fe ≠ CPU_SYS_NUMBER_OF_FIELDS
      · rw [if_pos hfe] at h
        simp at h
      · rw [if_neg hfe] at h
        cases h
        simp
  | cons l rest ih =>
      intro cpu fe stat h
      unfold sys_stat_scan at h
      cases hsp : splitWhitespaceTokens l with
      | nil =>
          rw [hsp] at h
          simp at h
      | cons key tail =>
          cases tail with
          | nil =>
              rw [hsp] at h
              simp at h
          | cons rawValue rest2 =>
              rw [hsp] at h
              cases hp : parse_u64 rawValue with
              | error e =>
                  simp only [hp, pbind] at h
                  simp at h
              | ok value =>
                  simp only [hp, pbind] at h
                  by_cases hk : key = "user"
                  · rw [if_pos hk] at h
                    by_cases hfe : fe + 1 = CPU_SYS_NUMBER_OF_FIELDS
                    · rw [if_pos hfe] at h
                      cases h
                      simp
                    · rw [if_neg hfe] at h
                      have := ih _ _ _ h
                      simpa using this
                  · by_cases hs : key = "system"
                    · rw [if_neg hk, if_pos hs] at h
                      by_cases hfe : fe + 1 = CPU_SYS_NUMBER_OF_FIELDS
                      · rw [if_pos hfe] at h
                        cases h
                        simp
                      · rw [if_neg hfe] at h
                        have := ih _ _ _ h
                        simpa using this
                    · rw [if_neg hk, if_neg hs] at h
                      by_cases hfe : fe = CPU_SYS_NUMBER_OF_FIELDS
                      · rw [if_pos hfe] at h
                        cases h
                        simp
                      · rw [if_neg hfe] at h
                        exact ih _ _ _ h

/-- Once the scan has `CPU_SYS_NUMBER_OF_FIELDS` key-line occurrences
available in well-formed lines, it stops at the second one: lines appended
after them are never examined. -/
theorem sys_stat_scan_stops (lines : List String) :
    ∀ (cpu : CpuStat) (fe : Nat) (extra : List String),
      (∀ l ∈ lines, wellFormedKVLine l = true) →
      fe < CPU_SYS_NUMBER_OF_FIELDS →
      CPU_SYS_NUMBER_OF_FIELDS ≤ fe + countedKeyLines lines →
      sys_stat_scan cpu fe (lines ++ extra) = sys_stat_scan cpu fe lines := by
  induction lines with
  | nil =>
      intro cpu fe extra _ hlt hge
      have h0 : countedKeyLines ([] : List String) = 0 := rfl
      rw [h0] at hge
      omega
  | cons l rest ih =>
      intro cpu fe extra hwf hlt hge
      have hwl : wellFormedKVLine l = true := hwf l (by simp)
      have hwr : ∀ x ∈ rest, wellFormedKVLine x = true := by
        intro x hx
        exact hwf x (by simp [hx])
      rw [List.cons_append]
      unfold sys_stat_scan
      cases hsp : splitWhitespaceTokens l with
      | nil => rfl
      | cons key tail =>
          cases tail with
          | nil => rfl
          | cons rawValue rest2 =>
              unfold wellFormedKVLine at hwl
              rw [hsp] at hwl
              have hnum : numericToken rawValue = true := hwl
              obtain ⟨value, hp⟩ : ∃ v, parse_u64 rawValue = Except.ok v := by
                unfold numericToken at hnum
                cases hp2 : parse_u64 rawValue with
                | ok v => exact ⟨v, rfl⟩
                | error e =>
                    rw [hp2] at hnum
                    simp at hnum
              simp only [hsp, hp, pbind]
              by_cases hk : key = "user"
              · have hkey : isKeyLine l = true := by
                  unfold isKeyLine
                  rw [hsp]
                  simp [hk]
                have hcount : countedKeyLines (l :: rest) =
                    countedKeyLines rest + 1 := by
                  unfold countedKeyLines
                  simp [List.filter_cons, hkey]
                rw [hcount] at hge
                simp only [if_pos hk]
                by_cases hfe : fe + 1 = CPU_SYS_NUMBER_OF_FIELDS
                · simp only [if_pos hfe]
                · simp only [if_neg hfe]
                  exact ih _ _ _ hwr
                    (by
                      unfold CPU_SYS_NUMBER_OF_FIELDS at hlt hfe ⊢
                      omega)
                    (by omega)
              · by_cases hs : key = "system"
                · have hkey : isKeyLine l = true := by
                    unfold isKeyLine
                    rw [hsp]
                    simp [hs]
                  have hcount : countedKeyLines (l :: rest) =
                      countedKeyLines rest + 1 := by
                    unfold countedKeyLines
                    simp [List.filter_cons, hkey]
                  rw [hcount] at hge
                  simp only [if_neg hk, if_pos hs]
                  by_cases hfe : fe + 1 = CPU_SYS_NUMBER_OF_FIELDS
                  · simp only [if_pos hfe]
                  · simp only [if_neg hfe]
                    exact ih _ _ _ hwr
                      (by
                        unfold CPU_SYS_NUMBER_OF_FIELDS at hlt hfe ⊢
                        omega)
                      (by omega)
                · have hkey : isKeyLine l = false := by
                    unfold isKeyLine
                    rw [hsp]
                    simp [hk, hs]
                  have hcount : countedKeyLines (l :: rest) =
                      countedKeyLines rest := by
                    unfold countedKeyLines
                    simp [List.filter_cons, hkey]
                  rw [hcount] at hge
                  simp only [if_neg hk, if_neg hs,
                    if_neg (by omega : ¬ fe = CPU_SYS_NUMBER_OF_FIELDS)]
                  exact ih _ _ _ hwr hlt (by omega)

/-- C9 amended: the accounting-directory adapter converts the nanosecond
total by dividing by exactly 10,000,000. The scan counts `user`/`system`
key lines with multiplicity and stops as soon as two have been counted,
never examining later lines; it fails with `UnexpectedContent` when the
well-formed key/value lines are exhausted with fewer than two key-line
occurrences — so a duplicated key (e.g. two `user` lines) satisfies the
scan even though the `system` key was never seen. Every field other than
`user`, `system` and `total` is 0 in any resulting snapshot. -/
theorem c9_amended_sys_stat (usage : Nat) (lines : List String)
    (hwf : ∀ l ∈ lines, wellFormedKVLine l = true) :
    (countedKeyLines lines < CPU_SYS_NUMBER_OF_FIELDS →
      read_and_parse_sys_stat usage lines =
        .err (.UnexpectedContent "Did not encounter all expected fields")) ∧
    (CPU_SYS_NUMBER_OF_FIELDS ≤ countedKeyLines lines →
      ∀ extra, read_and_parse_sys_stat usage (lines ++ extra) =
        read_and_parse_sys_stat usage lines) ∧
    (∀ stat, read_and_parse_sys_stat usage lines = .ok stat →
      stat.total = nano_to_user usage ∧
      nano_to_user usage = usage / 10000000 ∧
      stat.nice = 0 ∧ stat.idle = 0 ∧ stat.iowait = 0 ∧ stat.irq = 0 ∧
      stat.softirq = 0 ∧ stat.steal = 0 ∧ stat.guest = 0 ∧
      stat.guestnice = 0) := by
  refine ⟨?_, ?_, ?_⟩
  · intro hc
    unfold read_and_parse_sys_stat
    exact sys_stat_scan_exhausted lines _ 0 hwf (by omega)
  · intro hc extra
    unfold read_and_parse_sys_stat
    exact sys_stat_scan_stops lines _ 0 extra hwf
      (by unfold CPU_SYS_NUMBER_OF_FIELDS; omega) (by omega)
  · intro stat h
    unfold read_and_parse_sys_stat at h
    have hf := sys_stat_scan_ok_fields lines _ 0 stat h
    exact ⟨hf.1, rfl, hf.2.1, hf.2.2.1, hf.2.2.2.1, hf.2.2.2.2.1,
      hf.2.2.2.2.2.1, hf.2.2.2.2.2.2.1, hf.2.2.2.2.2.2.2.1,
      hf.2.2.2.2.2.2.2.2⟩

/-- C9 counterexample: a key/value file consisting of two `user` lines and
no `system` line at all is accepted — the scan counts the duplicated key
twice, keeps the later value (`user = 2`), leaves `system = 0`, and returns
a snapshot instead of `UnexpectedContent`. -/
theorem c9_duplicate_user_key_satisfies_scan :
    read_and_parse_sys_stat 100000000 (["user 1", "user 2"]) =
      .ok { total := 10, user := 2, nice := 0, system := 0, idle := 0,
            iowait := 0, irq := 0, softirq := 0, steal := 0, guest := 0,
            guestnice := 0 } ∧
    splitWhitespaceTokens "user 1" = (["user", "1"]) ∧
    splitWhitespaceTokens "user 2" = (["user", "2"]) := by
  decide

/-- C9 amended witness: on the `test_read_sys_measurement` fixture values
(src/cpu.rs lines 278-292) the scan stops after `user` and `system` and a
trailing line that would not even parse is never examined. -/
theorem c9_amended_sys_stat_witness :
    read_and_parse_sys_stat 13950000000
        (["user 404", "system 749"] ++ (["garbage line"])) =
      read_and_parse_sys_stat 13950000000 (["user 404", "system 749"]) :=
  (c9_amended_sys_stat 13950000000 (["user 404", "system 749"])
    (by decide)).2.1 (by decide) (["garbage line"])
